import Mathlib

/-!
Shallow embedding of `run_weekly.py`, the weekly search-performance report
script.  The pandas `DataFrame` is modelled as an index (a list of cell
values) together with an association list of named columns; cell values are
modelled by the inductive type `Value` (null / string / rational number /
parsed calendar date / list-of-strings, the shapes the script manipulates).
Machine floats are modelled by `ℚ`; `pd.to_datetime(·, errors="coerce")` is
modelled on ISO `YYYY-MM-DD` strings and already-parsed dates, with every
other cell coerced to null, and `pd.to_numeric(·, errors="coerce")` is
modelled on decimal literals.  Fallible Python operations that the script
silences appear as `Option`-valued functions; functions that the script
guarantees never raise are total Lean functions.
-/

set_option autoImplicit false

/-- A calendar date, as produced by date parsing. -/
structure Date where
  year : Nat
  month : Nat
  day : Nat
deriving DecidableEq, Repr

/-- Split a character list at every occurrence of `sep`: model of Python-style
string splitting, written on character lists so that it evaluates. -/
def splitOnCharAux (sep : Char) : List Char → List Char → List (List Char)
  | [], acc => [acc.reverse]
  | c :: cs, acc =>
    if c == sep then acc.reverse :: splitOnCharAux sep cs []
    else splitOnCharAux sep cs (c :: acc)

/-- Split a character list on a separator character. -/
def splitOnChar (sep : Char) (l : List Char) : List (List Char) :=
  splitOnCharAux sep l []

/-- Accumulator pass of decimal-digit parsing. -/
def digitsToNatAux : List Char → Nat → Option Nat
  | [], acc => some acc
  | c :: cs, acc =>
    if c.isDigit then digitsToNatAux cs (acc * 10 + (c.toNat - 48)) else none

/-- Parse a non-empty all-digit character list as a natural number. -/
def charsToNat? : List Char → Option Nat
  | [] => none
  | l => digitsToNatAux l 0

/-- Model of `str.strip()`: drop leading and trailing whitespace. -/
def strTrim (s : String) : String :=
  ⟨((s.data.dropWhile Char.isWhitespace).reverse.dropWhile Char.isWhitespace).reverse⟩

/-- Model of `str.lower()`. -/
def strToLower (s : String) : String :=
  ⟨s.data.map Char.toLower⟩

/-- Day count of a month, with Gregorian leap years (used to validate dates). -/
def daysInMonth (y m : Nat) : Nat :=
  if m = 2 then (if (y % 4 = 0 ∧ y % 100 ≠ 0) ∨ y % 400 = 0 then 29 else 28)
  else if m = 4 ∨ m = 6 ∨ m = 9 ∨ m = 11 then 30
  else 31

/-- Strict ISO `YYYY-MM-DD` parsing, the date format the script works with:
model of both `datetime.strptime(s, "%Y-%m-%d")` and string-cell handling in
`pd.to_datetime(·, errors="coerce")`. -/
def parseDateString (s : String) : Option Date :=
  match splitOnChar '-' s.data with
  | [ys, ms, ds] =>
    if ys.length = 4 ∧ ms.length = 2 ∧ ds.length = 2 then
      match charsToNat? ys, charsToNat? ms, charsToNat? ds with
      | some y, some m, some d =>
        if 1 ≤ m ∧ m ≤ 12 ∧ 1 ≤ d ∧ d ≤ daysInMonth y m then some ⟨y, m, d⟩ else none
      | _, _, _ => none
    else none
  | _ => none

/-- The calendar day immediately before `d`. -/
def prevDay (d : Date) : Date :=
  if d.day > 1 then ⟨d.year, d.month, d.day - 1⟩
  else if d.month > 1 then ⟨d.year, d.month - 1, daysInMonth d.year (d.month - 1)⟩
  else ⟨d.year - 1, 12, 31⟩

/-- `d` shifted `n` calendar days into the past: model of `d - timedelta(days=n)`. -/
def subDays (d : Date) : Nat → Date
  | 0 => d
  | n + 1 => subDays (prevDay d) n

/-- Left-pad a numeral to two digits. -/
def pad2 (n : Nat) : String :=
  if n < 10 then "0" ++ toString n else toString n

/-- Left-pad a numeral to four digits. -/
def pad4 (n : Nat) : String :=
  if n < 10 then "000" ++ toString n
  else if n < 100 then "00" ++ toString n
  else if n < 1000 then "0" ++ toString n
  else toString n

/-- Model of `d.strftime("%Y-%m-%d")`. -/
def fmtYmd (d : Date) : String :=
  pad4 d.year ++ "-" ++ pad2 d.month ++ "-" ++ pad2 d.day

/-- Model of `parse_ymd` (source lines 166-170): parse a `YYYY-MM-DD` string,
`none` on failure instead of an escaping exception. -/
def parse_ymd (s : String) : Option Date :=
  parseDateString s

/-- Model of `calc_prev_week` (source lines 173-178): both bounds shifted
seven days back, or `(none, none)` when either bound fails to parse. -/
def calc_prev_week (start finish : String) : Option String × Option String :=
  match parse_ymd start, parse_ymd finish with
  | some s, some e => (some (fmtYmd (subDays s 7)), some (fmtYmd (subDays e 7)))
  | _, _ => (none, none)

/-- A cell of a raw or normalized table. -/
inductive Value where
  | vNull : Value
  | vStr : String → Value
  | vNum : ℚ → Value
  | vDate : Date → Value
  | vList : List String → Value
deriving DecidableEq, Repr

/-- The DataFrame model: an optionally named index (one label per row) plus
an ordered association list of named columns. -/
structure DataFrame where
  indexName : Option String
  index : List Value
  cols : List (String × List Value)
deriving DecidableEq, Repr

/-- First column with the given name, model of label lookup `df[n]`. -/
def findCol? (cols : List (String × List Value)) (n : String) : Option (List Value) :=
  match cols with
  | [] => none
  | c :: rest => if c.1 == n then some c.2 else findCol? rest n

/-- Model of `n in df.columns`. -/
def hasCol (d : DataFrame) (n : String) : Bool :=
  (findCol? d.cols n).isSome

/-- Values of column `n` (defaulting to no cells when the column is absent;
the script only reads columns it has checked or created). -/
def getCol (d : DataFrame) (n : String) : List Value :=
  (findCol? d.cols n).getD []

/-- Column assignment on the column list: replace in place when the name is
present, append a new column otherwise — model of `df[n] = vs`. -/
def setColList (cols : List (String × List Value)) (n : String) (vs : List Value) :
    List (String × List Value) :=
  match cols with
  | [] => [(n, vs)]
  | c :: rest => if c.1 == n then (c.1, vs) :: rest else c :: setColList rest n vs

/-- Model of `df[n] = vs`. -/
def setCol (d : DataFrame) (n : String) (vs : List Value) : DataFrame :=
  { d with cols := setColList d.cols n vs }

/-- Number of rows of the frame. -/
def nRows (d : DataFrame) : Nat :=
  d.index.length

/-- Model of `df.empty`: some axis has length zero. -/
def dfEmpty (d : DataFrame) : Bool :=
  d.index.isEmpty || d.cols.isEmpty

/-- Model of `df.columns = [str(c).strip() for c in df.columns]`. -/
def stripColumns (d : DataFrame) : DataFrame :=
  { d with cols := d.cols.map (fun c => (strTrim c.1, c.2)) }

/-- Model of `df.reset_index()` for the case the script reaches it: the index
becomes a fresh range index and its values move into a leading column named
after the index (`"index"` when the index is unnamed). -/
def reset_index (d : DataFrame) : DataFrame :=
  { indexName := none,
    index := (List.range d.index.length).map (fun i : Nat => Value.vNum (i : ℚ)),
    cols := (d.indexName.getD "index", d.index) :: d.cols }

/-- Keep the rows whose mask bit is `true` (positional, like a boolean mask). -/
def maskFilter {α : Type} (mask : List Bool) (xs : List α) : List α :=
  (mask.zip xs).filterMap (fun p => if p.1 then some p.2 else none)

/-- Model of `lambda x: x[0] if isinstance(x, list) and len(x) else None`. -/
def keysFirst : Value → Value
  | .vList (s :: _) => .vStr s
  | _ => .vNull

/-- Cell-level model of `pd.to_datetime(·, errors="coerce")`: already-parsed
dates pass through, ISO strings parse, anything else coerces to null (`NaT`). -/
def toDatetime : Value → Value
  | .vNull => .vNull
  | .vStr s =>
    match parseDateString s with
    | some d => .vDate d
    | none => .vNull
  | .vNum _ => .vNull
  | .vDate d => .vDate d
  | .vList _ => .vNull

/-- Decimal-literal parsing, the string side of
`pd.to_numeric(·, errors="coerce")`: optional sign, digits, optional
fractional part. -/
def parseNumString (s : String) : Option ℚ :=
  let t := strTrim s
  let (neg, body) : Bool × List Char :=
    match t.data with
    | '-' :: rest => (true, rest)
    | '+' :: rest => (false, rest)
    | l => (false, l)
  let mag : Option ℚ :=
    match splitOnChar '.' body with
    | [intPart] => (charsToNat? intPart).map (fun n => (n : ℚ))
    | [intPart, fracPart] =>
      match charsToNat? intPart, charsToNat? fracPart with
      | some i, some f => some ((i : ℚ) + (f : ℚ) / (10 ^ fracPart.length))
      | _, _ => none
    | _ => none
  mag.map (fun q => if neg then -q else q)

/-- Cell-level model of `pd.to_numeric(·, errors="coerce")`. -/
def toNumeric : Value → Option ℚ
  | .vNum q => some q
  | .vStr s => parseNumString s
  | _ => none

/-- The canonical column list of the script (`schema`, source line 47). -/
def schema : List String :=
  ["date", "clicks", "impressions", "ctr", "position"]

/-- The empty canonical table `pd.DataFrame(columns=schema)` (source line 48). -/
def emptyDF : DataFrame :=
  { indexName := none, index := [], cols := schema.map (fun c => (c, [])) }

/-- A raw input to the normalizer: Python `None`, a non-DataFrame value, or a
DataFrame. -/
inductive RawInput where
  | null : RawInput
  | nonDF : RawInput
  | df : DataFrame → RawInput

/-- The index-name test of source line 66:
`getattr(df.index, "name", None) and str(df.index.name).strip().lower() == "date"`. -/
def indexIsDate (d : DataFrame) : Bool :=
  match d.indexName with
  | some nm => nm != "" && strToLower (strTrim nm) == "date"
  | none => false

/-- Date-column acquisition (source lines 59-67): when `date` is absent,
derive it from `keys` first, else pull a `date`-named index back into the
columns, else leave the frame unchanged. -/
def acquireDate (d : DataFrame) : DataFrame :=
  if hasCol d "date" then d
  else if hasCol d "keys" then
    setCol d "date" ((getCol d "keys").map keysFirst)
  else if indexIsDate d then
    reset_index d
  else d

/-- Source line 74: `df["date"] = pd.to_datetime(df["date"], errors="coerce")`. -/
def parseDates (d : DataFrame) : DataFrame :=
  setCol d "date" ((getCol d "date").map toDatetime)

/-- The row mask of `df.dropna(subset=["date"])`: a row survives when its
(parsed) date cell is not null. -/
def dateMask (d : DataFrame) : List Bool :=
  (getCol d "date").map (fun v => v != Value.vNull)

/-- Source line 75: `df = df.dropna(subset=["date"])` — drop the rows whose
(parsed) date cell is null. -/
def dropnaDate (d : DataFrame) : DataFrame :=
  { indexName := d.indexName,
    index := maskFilter (dateMask d) d.index,
    cols := d.cols.map (fun c => (c.1, maskFilter (dateMask d) c.2)) }

/-- Cell-level model of `pd.to_numeric(·, errors="coerce").fillna(0)`. -/
def coerceCell (v : Value) : Value :=
  Value.vNum ((toNumeric v).getD 0)

/-- Source lines 81-84 for one metric column: synthesize it filled with `0`
when absent, then coerce every cell to a number with unparseable cells
becoming `0` (`pd.to_numeric(·, errors="coerce").fillna(0)`). -/
def fixNumCol (d : DataFrame) (col : String) : DataFrame :=
  let d1 := if hasCol d col then d
            else setCol d col (List.replicate (nRows d) (Value.vNum 0))
  setCol d1 col ((getCol d1 col).map coerceCell)

/-- Final projection `df[["date","clicks","impressions","ctr","position"]]`
(source line 86). -/
def selectCols (d : DataFrame) (ns : List String) : DataFrame :=
  { d with cols := ns.map (fun n => (n, getCol d n)) }

/-- The whole metric-repair loop of source lines 81-84, one column at a time
in source order. -/
def fixNumCols (d : DataFrame) : DataFrame :=
  fixNumCol (fixNumCol (fixNumCol (fixNumCol d "clicks") "impressions") "ctr") "position"

/-- Source lines 77-86 applied to the date-parsed, row-filtered frame: bail
out with the empty canonical table when no row survived, otherwise repair the
four metric columns and project onto the canonical schema. -/
def normalizeParsed (d : DataFrame) : DataFrame :=
  if dfEmpty d then emptyDF
  else selectCols (fixNumCols d) schema

/-- Source lines 69-86 applied to the stripped frame with the date column
acquired: give up with the empty canonical table when `date` is still
absent, otherwise parse dates, drop unparseable rows and finish. -/
def normalizeAcquired (d : DataFrame) : DataFrame :=
  if hasCol d "date" then normalizeParsed (dropnaDate (parseDates d)) else emptyDF

/-- Model of `normalize_gsc_df` (source lines 41-86): absorb any raw shape
into the five-column canonical schema.  The function is total — the script's
guarantee that no exception escapes is the totality of this definition. -/
def normalize_gsc_df (raw : RawInput) : DataFrame :=
  match raw with
  | .null => emptyDF
  | .nonDF => emptyDF
  | .df df0 =>
    if dfEmpty df0 then emptyDF
    else normalizeAcquired (acquireDate (stripColumns df0))

/-- Names of the columns, in order. -/
def colNames (d : DataFrame) : List String :=
  d.cols.map Prod.fst

/-- Well-formedness of the model state: every column has exactly one cell per
index label.  Every real pandas DataFrame satisfies this. -/
def wfDF (d : DataFrame) : Bool :=
  d.cols.all (fun c => c.2.length == d.index.length)

/-- Well-formedness of a raw input. -/
def wfRaw : RawInput → Bool
  | .df d => wfDF d
  | _ => true

/-- Recognize a date cell. -/
def isDateV : Value → Bool
  | .vDate _ => true
  | _ => false

/-- Recognize a numeric cell. -/
def isNumV : Value → Bool
  | .vNum _ => true
  | _ => false

/-- A canonical period table: either the empty canonical table, or a
non-empty frame whose columns are exactly the five canonical ones, with
every date cell a parsed date and every metric cell numeric. -/
def CanonicalDF (d : DataFrame) : Prop :=
  d = emptyDF ∨
  ∃ dv cv iv tv pv : List Value,
    d.cols = [("date", dv), ("clicks", cv), ("impressions", iv), ("ctr", tv), ("position", pv)] ∧
    d.index ≠ [] ∧
    dv.all isDateV = true ∧ cv.all isNumV = true ∧ iv.all isNumV = true ∧
    tv.all isNumV = true ∧ pv.all isNumV = true

/-- One record of the raw API response, as a field map. -/
def Record : Type := List (String × Value)

/-- Model of `pd.DataFrame()` with no arguments: no columns, no rows. -/
def pdEmptyDF : DataFrame :=
  { indexName := none, index := [], cols := [] }

/-- Column keys of a record list in first-appearance order, as
`pd.DataFrame(rows)` would produce them. -/
def rowsKeys (rows : List Record) : List String :=
  rows.foldl
    (fun acc r => r.foldl (fun acc kv => if acc.contains kv.1 then acc else acc ++ [kv.1]) acc)
    []

/-- Field lookup in a record, absent fields becoming null cells. -/
def lookupField (r : Record) (k : String) : Value :=
  ((r.find? (fun kv => kv.1 == k)).map Prod.snd).getD .vNull

/-- Model of `pd.DataFrame(rows)` on a list of records. -/
def pdDataFrameOfRecords (rows : List Record) : DataFrame :=
  { indexName := none,
    index := (List.range rows.length).map (fun i : Nat => Value.vNum (i : ℚ)),
    cols := (rowsKeys rows).map (fun k => (k, rows.map (fun r => lookupField r k))) }

/-- Outcome of the external Search-Console query: any transport, auth or
response-parsing exception (including an unavailable service object) is the
`failure` case; `success rows` is the parsed `response.get("rows", [])`. -/
inductive QueryOutcome where
  | failure : QueryOutcome
  | success : List Record → QueryOutcome

/-- Model of `fetch_gsc_data` (source lines 92-124): build a frame from the
returned rows, pre-derive `date` from `keys` as in the source, and normalize;
any query failure or an empty row list collapses to
`normalize_gsc_df(pd.DataFrame())`. -/
def fetch_gsc_data (outcome : QueryOutcome) : DataFrame :=
  match outcome with
  | .failure => normalize_gsc_df (.df pdEmptyDF)
  | .success rows =>
    if rows.isEmpty then normalize_gsc_df (.df pdEmptyDF)
    else
      let df := pdDataFrameOfRecords rows
      let df :=
        if hasCol df "keys" && !hasCol df "date" then
          setCol df "date" ((getCol df "keys").map keysFirst)
        else df
      normalize_gsc_df (.df df)

/-- Sum of the numeric cells of a column, model of `df[col].sum()`. -/
def colSum (vs : List Value) : ℚ :=
  vs.foldl
    (fun acc v =>
      acc + match v with
            | .vNum q => q
            | _ => 0)
    0

/-- Model of the local `pct_change` (source lines 202-205): `None` on a zero
baseline, otherwise the raw relative change in percent. -/
def pct_change (cur prev : ℚ) : Option ℚ :=
  if prev = 0 then none else some ((cur - prev) / prev * 100)

/-- Rounding to one decimal place, the numeric content of the `"+.1f"`
format used by `fmt_pct` (source lines 210-213). -/
def round1 (q : ℚ) : ℚ :=
  ((round (10 * q) : ℤ) : ℚ) / 10

/-- The percent-change value as the report displays it: the raw `pct_change`
result rounded to one decimal place, with the `None` sentinel preserved
(`fmt_pct` renders it as `"N/A"`). -/
def percent_change (cur prev : ℚ) : Option ℚ :=
  (pct_change cur prev).map round1

/-- The week-over-week metrics snapshot consumed by the renderer. -/
structure WoWSnapshot where
  current_total : ℚ
  previous_total : ℚ
  absolute_diff : ℚ
  percent_change : Option ℚ
deriving DecidableEq, Repr

/-- The clicks total of one table as `write_report_html` computes it (source
lines 192-199): re-normalize, then `float(df["clicks"].sum()) if not df.empty
else 0.0`. -/
def clicksTotal (df : DataFrame) : ℚ :=
  if dfEmpty (normalize_gsc_df (.df df)) then 0
  else colSum (getCol (normalize_gsc_df (.df df)) "clicks")

/-- The clicks aggregation of `write_report_html` (source lines 192-207):
both tables re-normalized, clicks summed with an explicit `0` for an empty
table, and `pct_change` applied to the two totals. -/
def aggregate (df_current df_prev : DataFrame) : WoWSnapshot :=
  { current_total := clicksTotal df_current,
    previous_total := clicksTotal df_prev,
    absolute_diff := clicksTotal df_current - clicksTotal df_prev,
    percent_change := pct_change (clicksTotal df_current) (clicksTotal df_prev) }

/-- The process environment the script reads. -/
structure Env where
  gsc_site_url : Option String
  start_date : Option String
  end_date : Option String

/-- Python truth-value test of `os.environ.get(...)`: `None` and the empty
string are falsy. -/
def envFalsy : Option String → Bool
  | some s => s == ""
  | none => true

/-- The configuration-validation prefix of `main` (source lines 269-286),
up to the service-client construction: the log lines printed and, when the
run proceeds, the accepted `(site, start, end)` configuration. -/
def mainConfig (env : Env) : List String × Option (String × String × String) :=
  let logs := ["--- STARTING WEEKLY REPORT (FULL FIX V3) ---"]
  if envFalsy env.gsc_site_url then
    (logs ++ ["CRITICAL: GSC_SITE_URL not found."], none)
  else
    let site := env.gsc_site_url.getD ""
    if envFalsy env.start_date || envFalsy env.end_date then
      (logs ++ ["CRITICAL: START_DATE / END_DATE not found."], none)
    else
      let s := env.start_date.getD ""
      let e := env.end_date.getD ""
      if (parse_ymd s).isNone || (parse_ymd e).isNone then
        (logs ++ ["CRITICAL: START_DATE / END_DATE format must be YYYY-MM-DD."], none)
      else
        (logs, some (site, s, e))

/-- The raw frame of the spec's Scenario B:
`{"keys": [["2024-01-01"]], "clicks": ["7"], "impressions": ["100"]}` as
`pd.DataFrame` would build it (range index, columns in dict order). -/
def rawScenB : DataFrame :=
  { indexName := none, index := [.vNum 0],
    cols := [("keys", [.vList ["2024-01-01"]]), ("clicks", [.vStr "7"]),
             ("impressions", [.vStr "100"])] }

/-- A raw frame with no `date` or `keys` column whose index is named `nm` and
holds one ISO date label: the index-recovery family of inputs. -/
def rawIndexDate (nm : String) : DataFrame :=
  { indexName := some nm, index := [.vStr "2026-02-09"], cols := [("clicks", [.vNum 5])] }

/-! ### Mask and column-list lemmas -/

/-- Filtering no cells yields no cells. -/
theorem maskFilter_nil {α : Type} (m : List Bool) : maskFilter m ([] : List α) = [] := by
  simp [maskFilter]

/-- One step of mask filtering. -/
theorem maskFilter_cons {α : Type} (b : Bool) (m : List Bool) (x : α) (xs : List α) :
    maskFilter (b :: m) (x :: xs) = if b then x :: maskFilter m xs else maskFilter m xs := by
  cases b <;> simp [maskFilter]

/-- An all-true mask that covers the list filters nothing out. -/
theorem maskFilter_all_true {α : Type} (m : List Bool) (xs : List α)
    (hall : ∀ b ∈ m, b = true) (hlen : xs.length ≤ m.length) : maskFilter m xs = xs := by
  induction m generalizing xs with
  | nil =>
    cases xs with
    | nil => simp [maskFilter]
    | cons x xs => simp at hlen
  | cons b m ih =>
    cases xs with
    | nil => exact maskFilter_nil _
    | cons x xs =>
      have hb : b = true := hall b (by simp)
      subst hb
      rw [maskFilter_cons, if_pos rfl,
        ih xs (fun b hb => hall b (by simp [hb])) (by simpa using hlen)]

/-- Filtering equally long lists through one mask keeps them equally long. -/
theorem maskFilter_length_congr {α β : Type} (m : List Bool) (xs : List α) (ys : List β)
    (h : xs.length = ys.length) : (maskFilter m xs).length = (maskFilter m ys).length := by
  induction m generalizing xs ys with
  | nil => simp [maskFilter]
  | cons b m ih =>
    cases xs with
    | nil =>
      cases ys with
      | nil => rfl
      | cons y ys => simp at h
    | cons x xs =>
      cases ys with
      | nil => simp at h
      | cons y ys =>
        rw [maskFilter_cons, maskFilter_cons]
        have hlen := ih xs ys (by simpa using h)
        cases b <;> simp [hlen]

/-- Filtering a list through the mask of its own predicate is `List.filter`. -/
theorem maskFilter_map_self {α : Type} (p : α → Bool) (xs : List α) :
    maskFilter (xs.map p) xs = xs.filter p := by
  induction xs with
  | nil => simp [maskFilter]
  | cons x xs ih =>
    rw [List.map_cons, maskFilter_cons, List.filter_cons]
    cases hp : p x <;> simp [hp, ih]

/-- Assigning a column makes lookup of that name yield the assigned cells. -/
theorem findCol?_setColList_self (cols : List (String × List Value)) (n : String)
    (vs : List Value) : findCol? (setColList cols n vs) n = some vs := by
  induction cols with
  | nil => simp [setColList, findCol?]
  | cons c rest ih =>
    by_cases h : c.1 = n
    · simp [setColList, findCol?, h]
    · have hb : (c.1 == n) = false := by simp [h]
      simp [setColList, findCol?, hb, ih]

/-- Assigning a column leaves lookup of other names unchanged. -/
theorem findCol?_setColList_ne (cols : List (String × List Value)) (n m : String)
    (vs : List Value) (hne : m ≠ n) : findCol? (setColList cols n vs) m = findCol? cols m := by
  have hnm : n ≠ m := Ne.symm hne
  induction cols with
  | nil => simp [setColList, findCol?, hnm]
  | cons c rest ih =>
    by_cases h : c.1 = n
    · simp [setColList, findCol?, h, hnm]
    · by_cases h2 : c.1 = m
      · simp [setColList, findCol?, h, h2, hne, hnm]
      · simp [setColList, findCol?, h, h2, ih]

/-- `getCol` after assigning the same name. -/
theorem getCol_setCol_self (d : DataFrame) (n : String) (vs : List Value) :
    getCol (setCol d n vs) n = vs := by
  simp [getCol, setCol, findCol?_setColList_self]

/-- `getCol` after assigning a different name. -/
theorem getCol_setCol_ne (d : DataFrame) (n m : String) (vs : List Value) (hne : m ≠ n) :
    getCol (setCol d n vs) m = getCol d m := by
  simp [getCol, setCol, findCol?_setColList_ne _ _ _ _ hne]

/-- An assigned column is present. -/
theorem hasCol_setCol_self (d : DataFrame) (n : String) (vs : List Value) :
    hasCol (setCol d n vs) n = true := by
  simp [hasCol, setCol, findCol?_setColList_self]

/-- Assignment does not change presence of other columns. -/
theorem hasCol_setCol_ne (d : DataFrame) (n m : String) (vs : List Value) (hne : m ≠ n) :
    hasCol (setCol d n vs) m = hasCol d m := by
  simp [hasCol, setCol, findCol?_setColList_ne _ _ _ _ hne]

/-! ### Well-formedness lemmas -/

/-- A columnwise property survives assignment when the assigned cells have it. -/
theorem setColList_all (p : String × List Value → Bool) (cols : List (String × List Value))
    (n : String) (vs : List Value) (hall : cols.all p = true)
    (hvs : ∀ nm : String, p (nm, vs) = true) : (setColList cols n vs).all p = true := by
  induction cols with
  | nil => simp [setColList, hvs n]
  | cons c rest ih =>
    rw [List.all_cons, Bool.and_eq_true] at hall
    by_cases h : c.1 = n
    · simpa [setColList, h, hall.2] using hvs c.1
    · simp [setColList, h, hall.1, ih hall.2]

/-- Assignment of a fitting column preserves well-formedness. -/
theorem wfDF_setCol (d : DataFrame) (n : String) (vs : List Value)
    (hwf : wfDF d = true) (hlen : vs.length = d.index.length) :
    wfDF (setCol d n vs) = true := by
  unfold wfDF at hwf ⊢
  show (setColList d.cols n vs).all (fun c => c.2.length == d.index.length) = true
  exact setColList_all _ _ _ _ hwf (fun nm => beq_iff_eq.mpr hlen)

/-- In a well-formed frame a looked-up column fits the index. -/
theorem findCol?_length (cols : List (String × List Value)) (n : String) (vs : List Value)
    (L : Nat) (hall : cols.all (fun c => c.2.length == L) = true)
    (hfind : findCol? cols n = some vs) : vs.length = L := by
  induction cols with
  | nil => simp [findCol?] at hfind
  | cons c rest ih =>
    rw [List.all_cons, Bool.and_eq_true] at hall
    unfold findCol? at hfind
    split at hfind
    · injection hfind with h
      subst h
      exact beq_iff_eq.mp hall.1
    · exact ih hall.2 hfind

/-- In a well-formed frame every present column has one cell per row. -/
theorem getCol_length_of_wf (d : DataFrame) (n : String) (hwf : wfDF d = true)
    (h : hasCol d n = true) : (getCol d n).length = d.index.length := by
  unfold hasCol at h
  obtain ⟨vs, hvs⟩ := Option.isSome_iff_exists.mp h
  unfold getCol
  rw [hvs]
  exact findCol?_length _ _ _ _ hwf hvs

/-! ### Lemmas about the normalization stages -/

/-- Column lookup commutes with a uniform per-column cell transform. -/
theorem findCol?_map_vals (f : List Value → List Value) (cols : List (String × List Value))
    (n : String) :
    findCol? (cols.map (fun c => (c.1, f c.2))) n = (findCol? cols n).map f := by
  induction cols with
  | nil => simp [findCol?]
  | cons c rest ih =>
    by_cases h : c.1 = n <;> simp [findCol?, h, ih]

/-- Dropping rows touches cells, not column presence. -/
theorem hasCol_dropnaDate (d : DataFrame) (n : String) :
    hasCol (dropnaDate d) n = hasCol d n := by
  unfold hasCol dropnaDate
  rw [findCol?_map_vals]
  cases findCol? d.cols n <;> rfl

/-- Reading a column after the row drop filters its cells by the date mask. -/
theorem getCol_dropnaDate (d : DataFrame) (n : String) :
    getCol (dropnaDate d) n = maskFilter (dateMask d) (getCol d n) := by
  unfold getCol dropnaDate
  rw [findCol?_map_vals]
  cases findCol? d.cols n
  · simp [maskFilter_nil]
  · rfl

/-- Row dropping preserves well-formedness. -/
theorem wfDF_dropnaDate (d : DataFrame) (hwf : wfDF d = true) :
    wfDF (dropnaDate d) = true := by
  unfold wfDF at hwf ⊢
  rw [List.all_eq_true] at hwf ⊢
  intro c hc
  unfold dropnaDate at hc
  simp only [List.mem_map] at hc
  obtain ⟨c0, hc0, rfl⟩ := hc
  have h0 := beq_iff_eq.mp (hwf c0 hc0)
  exact beq_iff_eq.mpr (maskFilter_length_congr _ _ _ h0)

/-- The metric-column repair does not move the index. -/
theorem fixNumCol_index (d : DataFrame) (col : String) :
    (fixNumCol d col).index = d.index := by
  unfold fixNumCol
  split <;> rfl

/-- The metric-column repair does not rename the index. -/
theorem fixNumCol_indexName (d : DataFrame) (col : String) :
    (fixNumCol d col).indexName = d.indexName := by
  unfold fixNumCol
  split <;> rfl

/-- The repaired column is present afterwards. -/
theorem hasCol_fixNumCol_self (d : DataFrame) (col : String) :
    hasCol (fixNumCol d col) col = true := by
  unfold fixNumCol
  exact hasCol_setCol_self _ _ _

/-- Other columns' presence is untouched by the repair. -/
theorem hasCol_fixNumCol_ne (d : DataFrame) (col m : String) (hne : m ≠ col) :
    hasCol (fixNumCol d col) m = hasCol d m := by
  unfold fixNumCol
  split
  · rw [hasCol_setCol_ne _ _ _ _ hne]
  · rw [hasCol_setCol_ne _ _ _ _ hne, hasCol_setCol_ne _ _ _ _ hne]

/-- Other columns' cells are untouched by the repair. -/
theorem getCol_fixNumCol_ne (d : DataFrame) (col m : String) (hne : m ≠ col) :
    getCol (fixNumCol d col) m = getCol d m := by
  unfold fixNumCol
  split
  · rw [getCol_setCol_ne _ _ _ _ hne]
  · rw [getCol_setCol_ne _ _ _ _ hne, getCol_setCol_ne _ _ _ _ hne]

/-- Cells of the repaired column: the existing cells (or a synthesized zero
column) passed through the numeric coercion. -/
theorem getCol_fixNumCol_self (d : DataFrame) (col : String) :
    getCol (fixNumCol d col) col =
      (if hasCol d col then getCol d col
       else List.replicate (nRows d) (Value.vNum 0)).map coerceCell := by
  unfold fixNumCol
  split
  case isTrue h => rw [getCol_setCol_self]
  case isFalse h => rw [getCol_setCol_self, getCol_setCol_self]

/-- The repair preserves well-formedness. -/
theorem wfDF_fixNumCol (d : DataFrame) (col : String) (hwf : wfDF d = true) :
    wfDF (fixNumCol d col) = true := by
  unfold fixNumCol
  split
  case isTrue h =>
    exact wfDF_setCol _ _ _ hwf (by rw [List.length_map]; exact getCol_length_of_wf _ _ hwf h)
  case isFalse h =>
    have h1 : wfDF (setCol d col (List.replicate (nRows d) (Value.vNum 0))) = true :=
      wfDF_setCol _ _ _ hwf (by simp [nRows])
    refine wfDF_setCol _ _ _ h1 ?_
    rw [List.length_map, getCol_setCol_self]
    simp [nRows, setCol]

/-! ### Cell-class lemmas -/

/-- The date coercion only ever produces parsed dates or nulls. -/
theorem toDatetime_date_or_null (v : Value) :
    isDateV (toDatetime v) = true ∨ toDatetime v = Value.vNull := by
  cases v with
  | vStr s =>
    cases h : parseDateString s with
    | none => exact Or.inr (by simp [toDatetime, h])
    | some d => exact Or.inl (by simp [toDatetime, h, isDateV])
  | vDate d => exact Or.inl rfl
  | vNull => exact Or.inr rfl
  | vNum q => exact Or.inr rfl
  | vList l => exact Or.inr rfl

/-- Every cell of a date-coerced column is a parsed date or null. -/
theorem all_date_or_null_map_toDatetime (l : List Value) :
    (l.map toDatetime).all (fun v => isDateV v || v == Value.vNull) = true := by
  rw [List.all_eq_true]
  intro v hv
  obtain ⟨w, _, rfl⟩ := List.mem_map.mp hv
  rcases toDatetime_date_or_null w with h | h
  · simp [h]
  · simp [h]

/-- Filtering the nulls out of a dates-or-nulls column leaves only dates. -/
theorem all_isDateV_filter (l : List Value)
    (h : l.all (fun v => isDateV v || v == Value.vNull) = true) :
    ((l.filter (fun v => v != Value.vNull)).all isDateV) = true := by
  induction l with
  | nil => rfl
  | cons v l ih =>
    rw [List.all_cons, Bool.and_eq_true] at h
    rw [List.filter_cons]
    by_cases hv : v = Value.vNull
    · simp [hv, ih h.2]
    · have hd : isDateV v = true := by
        rcases Bool.or_eq_true_iff.mp h.1 with h1 | h1
        · exact h1
        · exact absurd (beq_iff_eq.mp h1) hv
      simp [hv, hd, ih h.2]

/-- A column of parsed dates passes through the date coercion unchanged. -/
theorem map_toDatetime_of_dates (l : List Value) (h : l.all isDateV = true) :
    l.map toDatetime = l := by
  induction l with
  | nil => rfl
  | cons v l ih =>
    rw [List.all_cons, Bool.and_eq_true] at h
    cases v with
    | vDate d => rw [List.map_cons, ih h.2]; rfl
    | vNull => exact absurd h.1 (by simp [isDateV])
    | vStr s => exact absurd h.1 (by simp [isDateV])
    | vNum q => exact absurd h.1 (by simp [isDateV])
    | vList xs => exact absurd h.1 (by simp [isDateV])

/-- A column of numbers passes through the numeric coercion unchanged. -/
theorem map_coerceCell_of_nums (l : List Value) (h : l.all isNumV = true) :
    l.map coerceCell = l := by
  induction l with
  | nil => rfl
  | cons v l ih =>
    rw [List.all_cons, Bool.and_eq_true] at h
    cases v with
    | vNum q => rw [List.map_cons, ih h.2]; rfl
    | vNull => exact absurd h.1 (by simp [isNumV])
    | vStr s => exact absurd h.1 (by simp [isNumV])
    | vDate d => exact absurd h.1 (by simp [isNumV])
    | vList xs => exact absurd h.1 (by simp [isNumV])

/-- The numeric coercion always produces numeric cells. -/
theorem all_isNumV_map_coerceCell (l : List Value) :
    (l.map coerceCell).all isNumV = true := by
  rw [List.all_eq_true]
  intro v hv
  obtain ⟨w, _, rfl⟩ := List.mem_map.mp hv
  rfl

/-- Over a column of parsed dates the drop mask is identically true. -/
theorem all_true_mask_of_dates (l : List Value) (h : l.all isDateV = true) :
    ∀ b ∈ l.map (fun v => v != Value.vNull), b = true := by
  intro b hb
  obtain ⟨v, hv, rfl⟩ := List.mem_map.mp hb
  have hd := List.all_eq_true.mp h v hv
  cases v with
  | vDate d => rfl
  | vNull => exact absurd hd (by simp [isDateV])
  | vStr s => exact absurd hd (by simp [isDateV])
  | vNum q => exact absurd hd (by simp [isDateV])
  | vList xs => exact absurd hd (by simp [isDateV])

/-! ### Emptiness, stripping and index lemmas -/

/-- A frame is non-empty exactly when both axes are inhabited. -/
theorem dfEmpty_false_iff (d : DataFrame) :
    dfEmpty d = false ↔ d.index ≠ [] ∧ d.cols ≠ [] := by
  unfold dfEmpty
  cases d.index <;> cases d.cols <;> simp

/-- Stripping column names preserves well-formedness. -/
theorem wfDF_stripColumns (d : DataFrame) (hwf : wfDF d = true) :
    wfDF (stripColumns d) = true := by
  unfold wfDF at hwf ⊢
  unfold stripColumns
  rw [List.all_eq_true] at hwf ⊢
  intro c hc
  obtain ⟨c0, hc0, rfl⟩ := List.mem_map.mp hc
  exact hwf c0 hc0

/-- Resetting the index preserves well-formedness. -/
theorem wfDF_reset_index (d : DataFrame) (hwf : wfDF d = true) :
    wfDF (reset_index d) = true := by
  unfold wfDF at hwf ⊢
  unfold reset_index
  rw [List.all_eq_true] at hwf ⊢
  intro c hc
  rw [List.mem_cons] at hc
  rcases hc with rfl | hc
  · show (d.index.length ==
      ((List.range d.index.length).map (fun i : Nat => Value.vNum (i : ℚ))).length) = true
    rw [List.length_map, List.length_range]
    exact beq_self_eq_true _
  · have h := hwf c hc
    show (c.2.length ==
      ((List.range d.index.length).map (fun i : Nat => Value.vNum (i : ℚ))).length) = true
    rw [List.length_map, List.length_range]
    exact h

/-- Date acquisition preserves well-formedness. -/
theorem wfDF_acquireDate (d : DataFrame) (hwf : wfDF d = true) :
    wfDF (acquireDate d) = true := by
  unfold acquireDate
  split
  · exact hwf
  · split
    case isTrue hk =>
      exact wfDF_setCol _ _ _ hwf
        (by rw [List.length_map]; exact getCol_length_of_wf _ _ hwf hk)
    case isFalse =>
      split
      · exact wfDF_reset_index _ hwf
      · exact hwf

/-! ### The metric-repair loop -/

/-- The repair loop does not move the index. -/
theorem fixNumCols_index (d : DataFrame) : (fixNumCols d).index = d.index := by
  unfold fixNumCols
  rw [fixNumCol_index, fixNumCol_index, fixNumCol_index, fixNumCol_index]

/-- The repair loop does not rename the index. -/
theorem fixNumCols_indexName (d : DataFrame) : (fixNumCols d).indexName = d.indexName := by
  unfold fixNumCols
  rw [fixNumCol_indexName, fixNumCol_indexName, fixNumCol_indexName, fixNumCol_indexName]

/-- The repair loop preserves well-formedness. -/
theorem wfDF_fixNumCols (d : DataFrame) (hwf : wfDF d = true) :
    wfDF (fixNumCols d) = true :=
  wfDF_fixNumCol _ _ (wfDF_fixNumCol _ _ (wfDF_fixNumCol _ _ (wfDF_fixNumCol _ _ hwf)))

/-- The repair loop leaves the date column alone. -/
theorem getCol_fixNumCols_date (d : DataFrame) :
    getCol (fixNumCols d) "date" = getCol d "date" := by
  unfold fixNumCols
  rw [getCol_fixNumCol_ne _ _ _ (by decide), getCol_fixNumCol_ne _ _ _ (by decide),
    getCol_fixNumCol_ne _ _ _ (by decide), getCol_fixNumCol_ne _ _ _ (by decide)]

/-- The repair loop leaves the date column present. -/
theorem hasCol_fixNumCols_date (d : DataFrame) :
    hasCol (fixNumCols d) "date" = hasCol d "date" := by
  unfold fixNumCols
  rw [hasCol_fixNumCol_ne _ _ _ (by decide), hasCol_fixNumCol_ne _ _ _ (by decide),
    hasCol_fixNumCol_ne _ _ _ (by decide), hasCol_fixNumCol_ne _ _ _ (by decide)]

/-- After the repair loop all four metric columns are present. -/
theorem hasCol_fixNumCols_metrics (d : DataFrame) :
    hasCol (fixNumCols d) "clicks" = true ∧ hasCol (fixNumCols d) "impressions" = true ∧
    hasCol (fixNumCols d) "ctr" = true ∧ hasCol (fixNumCols d) "position" = true := by
  unfold fixNumCols
  refine ⟨?_, ?_, ?_, ?_⟩
  · rw [hasCol_fixNumCol_ne _ _ _ (by decide), hasCol_fixNumCol_ne _ _ _ (by decide),
      hasCol_fixNumCol_ne _ _ _ (by decide)]
    exact hasCol_fixNumCol_self _ _
  · rw [hasCol_fixNumCol_ne _ _ _ (by decide), hasCol_fixNumCol_ne _ _ _ (by decide)]
    exact hasCol_fixNumCol_self _ _
  · rw [hasCol_fixNumCol_ne _ _ _ (by decide)]
    exact hasCol_fixNumCol_self _ _
  · exact hasCol_fixNumCol_self _ _

/-- After the repair loop all four metric columns hold only numbers. -/
theorem all_isNumV_fixNumCols (d : DataFrame) :
    (getCol (fixNumCols d) "clicks").all isNumV = true ∧
    (getCol (fixNumCols d) "impressions").all isNumV = true ∧
    (getCol (fixNumCols d) "ctr").all isNumV = true ∧
    (getCol (fixNumCols d) "position").all isNumV = true := by
  unfold fixNumCols
  refine ⟨?_, ?_, ?_, ?_⟩
  · rw [getCol_fixNumCol_ne _ _ _ (by decide), getCol_fixNumCol_ne _ _ _ (by decide),
      getCol_fixNumCol_ne _ _ _ (by decide), getCol_fixNumCol_self]
    exact all_isNumV_map_coerceCell _
  · rw [getCol_fixNumCol_ne _ _ _ (by decide), getCol_fixNumCol_ne _ _ _ (by decide),
      getCol_fixNumCol_self]
    exact all_isNumV_map_coerceCell _
  · rw [getCol_fixNumCol_ne _ _ _ (by decide), getCol_fixNumCol_self]
    exact all_isNumV_map_coerceCell _
  · rw [getCol_fixNumCol_self]
    exact all_isNumV_map_coerceCell _

/-! ### The shape of every normalized table -/

/-- The empty canonical table is well-formed. -/
theorem wfDF_emptyDF : wfDF emptyDF = true := by decide

/-- The empty canonical table is canonical. -/
theorem canonical_emptyDF : CanonicalDF emptyDF :=
  Or.inl rfl

/-- The final stage yields a canonical, well-formed table from any
well-formed frame whose date cells are parsed dates. -/
theorem normalizeParsed_canonical (d : DataFrame) (hwf : wfDF d = true)
    (hdate : hasCol d "date" = true)
    (hdv : (getCol d "date").all isDateV = true) :
    CanonicalDF (normalizeParsed d) ∧ wfDF (normalizeParsed d) = true := by
  unfold normalizeParsed
  split
  case isTrue h => exact ⟨canonical_emptyDF, wfDF_emptyDF⟩
  case isFalse h =>
    have hne : dfEmpty d = false := by
      cases hE : dfEmpty d
      · rfl
      · exact absurd hE h
    have hidx : d.index ≠ [] := ((dfEmpty_false_iff d).mp hne).1
    have wff : wfDF (fixNumCols d) = true := wfDF_fixNumCols d hwf
    have hdatef : hasCol (fixNumCols d) "date" = true := by
      rw [hasCol_fixNumCols_date]
      exact hdate
    obtain ⟨hmc, hmi, hmt, hmp⟩ := hasCol_fixNumCols_metrics d
    obtain ⟨hnc, hni, hnt, hnp⟩ := all_isNumV_fixNumCols d
    have hcols : (selectCols (fixNumCols d) schema).cols =
        [("date", getCol (fixNumCols d) "date"),
         ("clicks", getCol (fixNumCols d) "clicks"),
         ("impressions", getCol (fixNumCols d) "impressions"),
         ("ctr", getCol (fixNumCols d) "ctr"),
         ("position", getCol (fixNumCols d) "position")] := by
      simp only [selectCols, schema, List.map_cons, List.map_nil]
    have hidxsel : (selectCols (fixNumCols d) schema).index = d.index := by
      unfold selectCols
      exact fixNumCols_index d
    have hL : ∀ n : String, hasCol (fixNumCols d) n = true →
        (getCol (fixNumCols d) n).length = d.index.length := by
      intro n hn
      rw [← fixNumCols_index d]
      exact getCol_length_of_wf _ _ wff hn
    constructor
    · refine Or.inr ⟨getCol (fixNumCols d) "date", getCol (fixNumCols d) "clicks",
        getCol (fixNumCols d) "impressions", getCol (fixNumCols d) "ctr",
        getCol (fixNumCols d) "position", hcols, ?_, ?_, hnc, hni, hnt, hnp⟩
      · rw [hidxsel]
        exact hidx
      · rw [getCol_fixNumCols_date]
        exact hdv
    · unfold wfDF
      rw [hcols, hidxsel]
      simp only [List.all_cons, List.all_nil, Bool.and_eq_true, and_true]
      exact ⟨beq_iff_eq.mpr (hL _ hdatef), beq_iff_eq.mpr (hL _ hmc),
        beq_iff_eq.mpr (hL _ hmi), beq_iff_eq.mpr (hL _ hmt), beq_iff_eq.mpr (hL _ hmp)⟩

/-- From the date guard on, normalization yields a canonical well-formed
table from any well-formed frame. -/
theorem normalizeAcquired_canonical (d : DataFrame) (hwf : wfDF d = true) :
    CanonicalDF (normalizeAcquired d) ∧ wfDF (normalizeAcquired d) = true := by
  unfold normalizeAcquired
  split
  case isFalse => exact ⟨canonical_emptyDF, wfDF_emptyDF⟩
  case isTrue hdate =>
    have hplen : ((getCol d "date").map toDatetime).length = d.index.length := by
      rw [List.length_map]
      exact getCol_length_of_wf _ _ hwf hdate
    have wfp : wfDF (parseDates d) = true := wfDF_setCol _ _ _ hwf hplen
    have hdatep : hasCol (parseDates d) "date" = true := hasCol_setCol_self _ _ _
    have hgetp : getCol (parseDates d) "date" = (getCol d "date").map toDatetime :=
      getCol_setCol_self _ _ _
    have wfq : wfDF (dropnaDate (parseDates d)) = true := wfDF_dropnaDate _ wfp
    have hdateq : hasCol (dropnaDate (parseDates d)) "date" = true := by
      rw [hasCol_dropnaDate]
      exact hdatep
    have hgetq : (getCol (dropnaDate (parseDates d)) "date").all isDateV = true := by
      rw [getCol_dropnaDate]
      unfold dateMask
      rw [hgetp, maskFilter_map_self]
      exact all_isDateV_filter _ (all_date_or_null_map_toDatetime _)
    exact normalizeParsed_canonical _ wfq hdateq hgetq

/-- Every table the normalizer produces from a well-formed raw input is
canonical and well-formed. -/
theorem normalize_canonical (x : RawInput) (hwf : wfRaw x = true) :
    CanonicalDF (normalize_gsc_df x) ∧ wfDF (normalize_gsc_df x) = true := by
  cases x with
  | null => exact ⟨canonical_emptyDF, wfDF_emptyDF⟩
  | nonDF => exact ⟨canonical_emptyDF, wfDF_emptyDF⟩
  | df d0 =>
    have hwf0 : wfDF d0 = true := hwf
    have hred : normalize_gsc_df (.df d0) =
        if dfEmpty d0 then emptyDF else normalizeAcquired (acquireDate (stripColumns d0)) := rfl
    rw [hred]
    split
    · exact ⟨canonical_emptyDF, wfDF_emptyDF⟩
    · exact normalizeAcquired_canonical _ (wfDF_acquireDate _ (wfDF_stripColumns _ hwf0))

/-! ### Normalization fixes canonical tables -/

/-- Lookup at the head of a matching column list. -/
theorem findCol?_cons_self (c : String × List Value) (rest : List (String × List Value))
    (n : String) (h : c.1 = n) : findCol? (c :: rest) n = some c.2 := by
  simp [findCol?, h]

/-- Lookup skips a non-matching head. -/
theorem findCol?_cons_ne (c : String × List Value) (rest : List (String × List Value))
    (n : String) (h : c.1 ≠ n) : findCol? (c :: rest) n = findCol? rest n := by
  simp [findCol?, h]

/-- `findCol?_cons_self` for a literal head pair. -/
theorem findCol?_pair_self (nm : String) (vs : List Value)
    (rest : List (String × List Value)) : findCol? ((nm, vs) :: rest) nm = some vs := by
  simp [findCol?]

/-- `findCol?_cons_ne` for a literal head pair. -/
theorem findCol?_pair_ne (nm n : String) (vs : List Value)
    (rest : List (String × List Value)) (h : nm ≠ n) :
    findCol? ((nm, vs) :: rest) n = findCol? rest n := by
  simp [findCol?, h]

/-- Re-assigning a column its own cells changes nothing. -/
theorem setColList_id (cols : List (String × List Value)) (n : String) (vs : List Value)
    (h : findCol? cols n = some vs) : setColList cols n vs = cols := by
  induction cols with
  | nil => simp [findCol?] at h
  | cons c rest ih =>
    by_cases hc : c.1 = n
    · rw [findCol?_cons_self _ _ _ hc] at h
      injection h with h
      subst h
      subst hc
      simp [setColList, Prod.mk.eta]
    · rw [findCol?_cons_ne _ _ _ hc] at h
      simp [setColList, hc, ih h]

/-- Frame-level form of `setColList_id`. -/
theorem setCol_id (d : DataFrame) (n : String) (vs : List Value)
    (h : findCol? d.cols n = some vs) : setCol d n vs = d := by
  unfold setCol
  rw [setColList_id _ _ _ h]

/-- Normalizing a table that is already canonical and well-formed gives the
very same table: the fixed-point property behind idempotence. -/
theorem normalize_fixes_canonical (d : DataFrame) (hcan : CanonicalDF d)
    (hwf : wfDF d = true) : normalize_gsc_df (.df d) = d := by
  rcases hcan with rfl | ⟨dv, cv, iv, tv, pv, hcols, hidx, hdv, hcv, hiv, htv, hpv⟩
  · decide
  · have hfdate : findCol? d.cols "date" = some dv := by
      rw [hcols, findCol?_pair_self]
    have hfclicks : findCol? d.cols "clicks" = some cv := by
      rw [hcols, findCol?_pair_ne _ _ _ _ (by decide), findCol?_pair_self]
    have hfimpr : findCol? d.cols "impressions" = some iv := by
      rw [hcols, findCol?_pair_ne _ _ _ _ (by decide), findCol?_pair_ne _ _ _ _ (by decide),
        findCol?_pair_self]
    have hfctr : findCol? d.cols "ctr" = some tv := by
      rw [hcols, findCol?_pair_ne _ _ _ _ (by decide), findCol?_pair_ne _ _ _ _ (by decide),
        findCol?_pair_ne _ _ _ _ (by decide), findCol?_pair_self]
    have hfpos : findCol? d.cols "position" = some pv := by
      rw [hcols, findCol?_pair_ne _ _ _ _ (by decide), findCol?_pair_ne _ _ _ _ (by decide),
        findCol?_pair_ne _ _ _ _ (by decide), findCol?_pair_ne _ _ _ _ (by decide),
        findCol?_pair_self]
    have hhasdate : hasCol d "date" = true := by
      unfold hasCol
      rw [hfdate]
      rfl
    have hgetdate : getCol d "date" = dv := by
      unfold getCol
      rw [hfdate]
      rfl
    have hgetclicks : getCol d "clicks" = cv := by
      unfold getCol
      rw [hfclicks]
      rfl
    have hgetimpr : getCol d "impressions" = iv := by
      unfold getCol
      rw [hfimpr]
      rfl
    have hgetctr : getCol d "ctr" = tv := by
      unfold getCol
      rw [hfctr]
      rfl
    have hgetpos : getCol d "position" = pv := by
      unfold getCol
      rw [hfpos]
      rfl
    have hlens : dv.length = d.index.length ∧ cv.length = d.index.length ∧
        iv.length = d.index.length ∧ tv.length = d.index.length ∧
        pv.length = d.index.length := by
      unfold wfDF at hwf
      rw [hcols] at hwf
      simp only [List.all_cons, List.all_nil, Bool.and_eq_true, and_true, beq_iff_eq] at hwf
      exact hwf
    obtain ⟨l1, l2, l3, l4, l5⟩ := hlens
    have hE : dfEmpty d = false := by
      refine (dfEmpty_false_iff d).mpr ⟨hidx, ?_⟩
      rw [hcols]
      exact List.cons_ne_nil _ _
    have hstrip : stripColumns d = d := by
      unfold stripColumns
      rw [hcols]
      simp only [List.map_cons, List.map_nil]
      rw [(by decide : strTrim "date" = "date"), (by decide : strTrim "clicks" = "clicks"),
        (by decide : strTrim "impressions" = "impressions"),
        (by decide : strTrim "ctr" = "ctr"), (by decide : strTrim "position" = "position"),
        ← hcols]
    have hacq : acquireDate d = d := by
      unfold acquireDate
      rw [if_pos hhasdate]
    have hparse : parseDates d = d := by
      unfold parseDates
      rw [hgetdate, map_toDatetime_of_dates dv hdv]
      exact setCol_id _ _ _ hfdate
    have hmask : ∀ b ∈ dateMask d, b = true := by
      unfold dateMask
      rw [hgetdate]
      exact all_true_mask_of_dates dv hdv
    have hmlen : (dateMask d).length = d.index.length := by
      unfold dateMask
      rw [hgetdate, List.length_map, l1]
    have hfilter : ∀ xs : List Value, xs.length = d.index.length →
        maskFilter (dateMask d) xs = xs := by
      intro xs hxs
      exact maskFilter_all_true _ _ hmask (le_of_eq (hxs.trans hmlen.symm))
    have hdrop : dropnaDate d = d := by
      unfold dropnaDate
      rw [hcols]
      simp only [List.map_cons, List.map_nil]
      rw [hfilter dv l1, hfilter cv l2, hfilter iv l3, hfilter tv l4, hfilter pv l5,
        hfilter d.index rfl, ← hcols]
    have hfixc : fixNumCol d "clicks" = d := by
      unfold fixNumCol
      rw [if_pos (show hasCol d "clicks" = true by unfold hasCol; rw [hfclicks]; rfl)]
      show setCol d "clicks" ((getCol d "clicks").map coerceCell) = d
      rw [hgetclicks, map_coerceCell_of_nums cv hcv]
      exact setCol_id _ _ _ hfclicks
    have hfixi : fixNumCol d "impressions" = d := by
      unfold fixNumCol
      rw [if_pos (show hasCol d "impressions" = true by unfold hasCol; rw [hfimpr]; rfl)]
      show setCol d "impressions" ((getCol d "impressions").map coerceCell) = d
      rw [hgetimpr, map_coerceCell_of_nums iv hiv]
      exact setCol_id _ _ _ hfimpr
    have hfixt : fixNumCol d "ctr" = d := by
      unfold fixNumCol
      rw [if_pos (show hasCol d "ctr" = true by unfold hasCol; rw [hfctr]; rfl)]
      show setCol d "ctr" ((getCol d "ctr").map coerceCell) = d
      rw [hgetctr, map_coerceCell_of_nums tv htv]
      exact setCol_id _ _ _ hfctr
    have hfixp : fixNumCol d "position" = d := by
      unfold fixNumCol
      rw [if_pos (show hasCol d "position" = true by unfold hasCol; rw [hfpos]; rfl)]
      show setCol d "position" ((getCol d "position").map coerceCell) = d
      rw [hgetpos, map_coerceCell_of_nums pv hpv]
      exact setCol_id _ _ _ hfpos
    have hfix : fixNumCols d = d := by
      unfold fixNumCols
      rw [hfixc, hfixi, hfixt, hfixp]
    have hsel : selectCols d schema = d := by
      unfold selectCols schema
      simp only [List.map_cons, List.map_nil]
      rw [hgetdate, hgetclicks, hgetimpr, hgetctr, hgetpos, ← hcols]
    have hred : normalize_gsc_df (.df d) =
        if dfEmpty d then emptyDF else normalizeAcquired (acquireDate (stripColumns d)) := rfl
    rw [hred, hE, if_neg Bool.false_ne_true, hstrip, hacq]
    unfold normalizeAcquired
    rw [if_pos hhasdate, hparse, hdrop]
    unfold normalizeParsed
    rw [hE, if_neg Bool.false_ne_true, hfix, hsel]

/-! ### Remaining helper lemmas -/

/-- Projection always yields exactly the requested column names, in order. -/
theorem colNames_selectCols (d : DataFrame) (ns : List String) :
    colNames (selectCols d ns) = ns := by
  unfold colNames selectCols
  rw [List.map_map]
  exact List.map_id ns

/-- The canonical column names of the empty canonical table. -/
theorem colNames_emptyDF : colNames emptyDF = schema := by decide

/-- On a canonical well-formed table the aggregated clicks total is just the
sum of its clicks column. -/
theorem clicksTotal_canonical (d : DataFrame) (hcan : CanonicalDF d)
    (hwf : wfDF d = true) : clicksTotal d = colSum (getCol d "clicks") := by
  unfold clicksTotal
  rw [normalize_fixes_canonical d hcan hwf]
  rcases hcan with rfl | ⟨dv, cv, iv, tv, pv, hcols, hidx, _⟩
  · decide
  · have hE : dfEmpty d = false :=
      (dfEmpty_false_iff d).mpr ⟨hidx, by rw [hcols]; exact List.cons_ne_nil _ _⟩
    rw [hE, if_neg Bool.false_ne_true]

/-! ### The claims -/

/-- C1: for every raw input (null, a non-DataFrame value, an empty record
set, one missing `date`, one with only `keys`, or one with partially
malformed dates or numbers), `normalize_gsc_df` returns a table whose
columns are exactly `date`, `clicks`, `impressions`, `ctr`, `position` in
that order; the operation never raises — it is a total function of the raw
input. -/
theorem normalize_schema_stable (x : RawInput) :
    colNames (normalize_gsc_df x) = schema := by
  cases x with
  | null => exact colNames_emptyDF
  | nonDF => exact colNames_emptyDF
  | df d0 =>
    have hred : normalize_gsc_df (.df d0) =
        if dfEmpty d0 then emptyDF else normalizeAcquired (acquireDate (stripColumns d0)) := rfl
    rw [hred]
    split
    · exact colNames_emptyDF
    · unfold normalizeAcquired
      split
      · unfold normalizeParsed
        split
        · exact colNames_emptyDF
        · exact colNames_selectCols _ _
      · exact colNames_emptyDF

/-- C2: the displayed percent change is the `none` sentinel exactly when the
previous total is `0`; otherwise it is `absolute_diff / previous_total * 100`
rounded to one decimal place, and in particular totals `60` versus `45` give
`33.3`. -/
theorem pct_change_spec :
    (∀ cur prev : ℚ, (percent_change cur prev = none ↔ prev = 0) ∧
      (prev ≠ 0 → percent_change cur prev = some (round1 ((cur - prev) / prev * 100)))) ∧
    percent_change 60 45 = some (333 / 10) := by
  constructor
  · intro cur prev
    constructor
    · unfold percent_change pct_change
      by_cases h : prev = 0 <;> simp [h]
    · intro h
      unfold percent_change pct_change
      rw [if_neg h]
      rfl
  · unfold percent_change pct_change
    rw [if_neg (by norm_num : (45 : ℚ) ≠ 0)]
    show some (round1 ((60 - 45) / 45 * 100)) = some (333 / 10)
    norm_num [round1, round_eq]

/-- C2 witness: the nonzero-baseline branch at the concrete totals of
Scenario A. -/
theorem pct_change_spec_witness : (45 : ℚ) ≠ 0 ∧
    percent_change 60 45 = some (round1 ((60 - 45) / 45 * 100)) :=
  ⟨by norm_num, (pct_change_spec.1 60 45).2 (by norm_num)⟩

/-- C3: on canonical tables the aggregation sums each table's clicks column
(the sum of no cells being `0`), takes the difference, and applies
`pct_change`; on two empty canonical tables this gives totals `0`, difference
`0` and the undefined sentinel. -/
theorem aggregate_spec :
    (∀ dc dp : DataFrame, CanonicalDF dc → wfDF dc = true → CanonicalDF dp → wfDF dp = true →
      aggregate dc dp =
        { current_total := colSum (getCol dc "clicks"),
          previous_total := colSum (getCol dp "clicks"),
          absolute_diff := colSum (getCol dc "clicks") - colSum (getCol dp "clicks"),
          percent_change := pct_change (colSum (getCol dc "clicks"))
            (colSum (getCol dp "clicks")) }) ∧
    aggregate emptyDF emptyDF =
      { current_total := 0, previous_total := 0, absolute_diff := 0, percent_change := none } := by
  have hmain : ∀ dc dp : DataFrame, CanonicalDF dc → wfDF dc = true → CanonicalDF dp →
      wfDF dp = true →
      aggregate dc dp =
        { current_total := colSum (getCol dc "clicks"),
          previous_total := colSum (getCol dp "clicks"),
          absolute_diff := colSum (getCol dc "clicks") - colSum (getCol dp "clicks"),
          percent_change := pct_change (colSum (getCol dc "clicks"))
            (colSum (getCol dp "clicks")) } := by
    intro dc dp h1 h2 h3 h4
    unfold aggregate
    rw [clicksTotal_canonical dc h1 h2, clicksTotal_canonical dp h3 h4]
  refine ⟨hmain, ?_⟩
  rw [hmain emptyDF emptyDF canonical_emptyDF wfDF_emptyDF canonical_emptyDF wfDF_emptyDF]
  have hz : colSum (getCol emptyDF "clicks") = 0 := by decide
  rw [hz]
  simp [pct_change]

/-- C3 witness: the empty-tables instance of the universal part. -/
theorem aggregate_spec_witness : CanonicalDF emptyDF ∧
    aggregate emptyDF emptyDF =
      { current_total := colSum (getCol emptyDF "clicks"),
        previous_total := colSum (getCol emptyDF "clicks"),
        absolute_diff := colSum (getCol emptyDF "clicks") - colSum (getCol emptyDF "clicks"),
        percent_change := pct_change (colSum (getCol emptyDF "clicks"))
          (colSum (getCol emptyDF "clicks")) } :=
  ⟨canonical_emptyDF,
    aggregate_spec.1 emptyDF emptyDF canonical_emptyDF wfDF_emptyDF canonical_emptyDF wfDF_emptyDF⟩

/-- C5: every query failure (transport, auth, parsing, unavailable source)
makes `fetch_gsc_data` return the empty canonical table instead of
propagating an exception, so one period's failure cannot abort the other's
report. -/
theorem fetch_failure_empty : fetch_gsc_data .failure = emptyDF := by decide

/-- C6: normalizing the raw input
`{"keys": [["2024-01-01"]], "clicks": ["7"], "impressions": ["100"]}` yields
exactly one row `date=2024-01-01, clicks=7, impressions=100, ctr=0,
position=0`, with the `keys` column discarded. -/
theorem normalize_scenario_b :
    normalize_gsc_df (.df rawScenB) =
      { indexName := none, index := [.vNum 0],
        cols := [("date", [.vDate ⟨2024, 1, 1⟩]), ("clicks", [.vNum 7]),
                 ("impressions", [.vNum 100]), ("ctr", [.vNum 0]),
                 ("position", [.vNum 0])] } := by
  decide

/-- C7: with a positive baseline, the computed percent change is strictly
positive exactly when the absolute difference of the totals is. -/
theorem pct_change_sign (cur prev v : ℚ) (hprev : 0 < prev)
    (hv : pct_change cur prev = some v) : 0 < v ↔ 0 < cur - prev := by
  unfold pct_change at hv
  rw [if_neg (ne_of_gt hprev)] at hv
  injection hv with hv
  subst hv
  rw [show (cur - prev) / prev * 100 = 100 / prev * (cur - prev) by ring]
  exact mul_pos_iff_of_pos_left (by positivity)

/-- C7 witness: the sign equivalence at totals `60` versus `45`. -/
theorem pct_change_sign_witness : (0 : ℚ) < 45 ∧ pct_change 60 45 = some (100 / 3) ∧
    ((0 : ℚ) < 100 / 3 ↔ (0 : ℚ) < 60 - 45) :=
  ⟨by norm_num, by norm_num [pct_change],
    pct_change_sign 60 45 (100 / 3) (by norm_num) (by norm_num [pct_change])⟩

/-- C8: normalization is idempotent — feeding a normalized table back
through `normalize_gsc_df` reproduces it exactly, for every well-formed raw
input. -/
theorem normalize_idempotent (x : RawInput) (hwf : wfRaw x = true) :
    normalize_gsc_df (.df (normalize_gsc_df x)) = normalize_gsc_df x :=
  normalize_fixes_canonical _ (normalize_canonical x hwf).1 (normalize_canonical x hwf).2

/-- C8 witness: idempotence at the Scenario B raw input. -/
theorem normalize_idempotent_witness : wfRaw (.df rawScenB) = true ∧
    normalize_gsc_df (.df (normalize_gsc_df (.df rawScenB))) =
      normalize_gsc_df (.df rawScenB) :=
  ⟨by decide, normalize_idempotent (.df rawScenB) (by decide)⟩

/-- C9: whenever both current bounds parse, the derived previous period is
exactly seven days earlier at each bound. -/
theorem calc_prev_week_shift (s e : String) (ds de : Date)
    (hs : parse_ymd s = some ds) (he : parse_ymd e = some de) :
    calc_prev_week s e = (some (fmtYmd (subDays ds 7)), some (fmtYmd (subDays de 7))) := by
  unfold calc_prev_week
  rw [hs, he]

/-- C9 witness: the spec's Scenario D bounds. -/
theorem calc_prev_week_shift_witness :
    parse_ymd "2026-02-09" = some ⟨2026, 2, 9⟩ ∧
    calc_prev_week "2026-02-09" "2026-02-15" = (some "2026-02-02", some "2026-02-08") :=
  ⟨by decide,
    (calc_prev_week_shift "2026-02-09" "2026-02-15" ⟨2026, 2, 9⟩ ⟨2026, 2, 15⟩
      (by decide) (by decide)).trans (by decide)⟩

/-- C4 counterexample: with the site identifier `"example.com"`, which
begins with neither an HTTP scheme nor a domain-property prefix, and valid
dates, the configuration check emits only the start banner — no warning
diagnostic about the identifier — and accepts the identifier unchanged, so
the claim that a warning is emitted is false on this code. -/
theorem main_no_site_warning_counterexample :
    mainConfig { gsc_site_url := some "example.com", start_date := some "2026-02-09",
                 end_date := some "2026-02-15" } =
      (["--- STARTING WEEKLY REPORT (FULL FIX V3) ---"],
       some ("example.com", "2026-02-09", "2026-02-15")) := by
  decide

/-- C4 amended: every non-empty site identifier — regardless of its form —
is accepted without any diagnostic about it when the dates are valid, and a
missing site identifier aborts the run with the critical log line. -/
theorem main_site_url_check :
    (∀ site s e : String, ∀ ds de : Date, site ≠ "" → parse_ymd s = some ds →
      parse_ymd e = some de →
      mainConfig { gsc_site_url := some site, start_date := some s, end_date := some e } =
        (["--- STARTING WEEKLY REPORT (FULL FIX V3) ---"], some (site, s, e))) ∧
    (∀ s e : Option String,
      mainConfig { gsc_site_url := none, start_date := s, end_date := e } =
        (["--- STARTING WEEKLY REPORT (FULL FIX V3) ---", "CRITICAL: GSC_SITE_URL not found."],
         none)) := by
  constructor
  · intro site s e ds de hsite hs he
    have hes : parse_ymd "" = none := by decide
    have hsne : s ≠ "" := by
      intro h
      rw [h, hes] at hs
      exact Option.noConfusion hs
    have hene : e ≠ "" := by
      intro h
      rw [h, hes] at he
      exact Option.noConfusion he
    simp only [mainConfig, envFalsy, hs, he]
    simp [hsite, hsne, hene]
    constructor <;> simp [hs, he]
  · intro s e
    rfl

/-- C4 witness: the amended acceptance at the concrete malformed
identifier. -/
theorem main_site_url_check_witness : ("example.com" : String) ≠ "" ∧
    mainConfig { gsc_site_url := some "example.com", start_date := some "2026-02-09",
                 end_date := some "2026-02-15" } =
      (["--- STARTING WEEKLY REPORT (FULL FIX V3) ---"],
       some ("example.com", "2026-02-09", "2026-02-15")) :=
  ⟨by decide,
    main_site_url_check.1 "example.com" "2026-02-09" "2026-02-15" ⟨2026, 2, 9⟩ ⟨2026, 2, 15⟩
      (by decide) (by decide) (by decide)⟩

/-- C10 counterexample: a frame with no `date` or `keys` column whose index
is named `"Date"` — equal to `"date"` after trimming and lowering, so the
recovery branch fires — nevertheless normalizes to the empty table rather
than proceeding with the recovered date, because `reset_index` reinstates
the original, unstripped name. -/
theorem index_recovery_counterexample :
    hasCol (stripColumns (rawIndexDate "Date")) "date" = false ∧
    hasCol (stripColumns (rawIndexDate "Date")) "keys" = false ∧
    indexIsDate (stripColumns (rawIndexDate "Date")) = true ∧
    normalize_gsc_df (.df (rawIndexDate "Date")) = emptyDF := by
  refine ⟨by decide, by decide, by decide, by decide⟩

/-- C10 amended: for every non-empty raw frame with no `date` and no `keys`
column after name stripping whose index name equals `"date"` after trimming
and case-folding, the recovery branch moves the index into the columns, but
the run proceeds normally only when the index name is exactly `"date"` — the
moved column is then the old index and normalization continues down the
ordinary date-parsing pipeline; under any other matching name the normalizer
returns the empty table, because `reset_index` restores the column under its
original name.  And for every non-empty frame with no `date` column but a
`keys` column, the `keys` branch is taken, so index recovery is never
attempted. -/
theorem index_recovery_exact :
    (∀ (d0 : DataFrame) (nm : String),
      dfEmpty d0 = false →
      hasCol (stripColumns d0) "date" = false →
      hasCol (stripColumns d0) "keys" = false →
      d0.indexName = some nm → nm ≠ "" → strToLower (strTrim nm) = "date" →
      (nm = "date" →
        getCol (reset_index (stripColumns d0)) "date" = d0.index ∧
        normalize_gsc_df (.df d0) =
          normalizeParsed (dropnaDate (parseDates (reset_index (stripColumns d0))))) ∧
      (nm ≠ "date" → normalize_gsc_df (.df d0) = emptyDF)) ∧
    (∀ d0 : DataFrame, dfEmpty d0 = false →
      hasCol (stripColumns d0) "date" = false →
      hasCol (stripColumns d0) "keys" = true →
      normalize_gsc_df (.df d0) =
        normalizeAcquired (setCol (stripColumns d0) "date"
          ((getCol (stripColumns d0) "keys").map keysFirst))) := by
  constructor
  · intro d0 nm hE hnd hnk hnm hne hlow
    have hred : normalize_gsc_df (.df d0) =
        if dfEmpty d0 then emptyDF else normalizeAcquired (acquireDate (stripColumns d0)) := rfl
    have hstripName : (stripColumns d0).indexName = some nm := hnm
    have hisdate : indexIsDate (stripColumns d0) = true := by
      unfold indexIsDate
      rw [hstripName]
      simp [hne, hlow]
    have hacq : acquireDate (stripColumns d0) = reset_index (stripColumns d0) := by
      unfold acquireDate
      rw [hnd, if_neg Bool.false_ne_true, hnk, if_neg Bool.false_ne_true, hisdate, if_pos rfl]
    have hcolsr : (reset_index (stripColumns d0)).cols =
        (nm, d0.index) :: (stripColumns d0).cols := by
      show ((stripColumns d0).indexName.getD "index", (stripColumns d0).index) ::
        (stripColumns d0).cols = (nm, d0.index) :: (stripColumns d0).cols
      rw [hstripName]
      rfl
    constructor
    · intro hdate
      subst hdate
      constructor
      · unfold getCol
        rw [hcolsr, findCol?_pair_self]
        rfl
      · rw [hred, hE, if_neg Bool.false_ne_true, hacq]
        have hhasr : hasCol (reset_index (stripColumns d0)) "date" = true := by
          unfold hasCol
          rw [hcolsr, findCol?_pair_self]
          rfl
        unfold normalizeAcquired
        rw [if_pos hhasr]
    · intro hdne
      rw [hred, hE, if_neg Bool.false_ne_true, hacq]
      have hhasr : hasCol (reset_index (stripColumns d0)) "date" = false := by
        unfold hasCol
        rw [hcolsr, findCol?_pair_ne _ _ _ _ hdne]
        exact hnd
      unfold normalizeAcquired
      rw [hhasr, if_neg Bool.false_ne_true]
  · intro d0 hE hnd hk
    have hred : normalize_gsc_df (.df d0) =
        if dfEmpty d0 then emptyDF else normalizeAcquired (acquireDate (stripColumns d0)) := rfl
    rw [hred, hE, if_neg Bool.false_ne_true]
    unfold acquireDate
    rw [hnd, if_neg Bool.false_ne_true, hk, if_pos rfl]

/-- C10 witness: at the exact index name `"date"` on the concrete one-row
frame, the recovery succeeds — the moved column is the old index and the run
ends in the full one-row canonical table. -/
theorem index_recovery_exact_witness :
    dfEmpty (rawIndexDate "date") = false ∧ ("date" : String) ≠ "" ∧
    getCol (reset_index (stripColumns (rawIndexDate "date"))) "date" =
      (rawIndexDate "date").index ∧
    normalize_gsc_df (.df (rawIndexDate "date")) =
      { indexName := none, index := [.vNum 0],
        cols := [("date", [.vDate ⟨2026, 2, 9⟩]), ("clicks", [.vNum 5]),
                 ("impressions", [.vNum 0]), ("ctr", [.vNum 0]),
                 ("position", [.vNum 0])] } := by
  have h := (index_recovery_exact.1 (rawIndexDate "date") "date" (by decide) (by decide)
    (by decide) rfl (by decide) (by decide)).1 rfl
  refine ⟨by decide, by decide, h.1, ?_⟩
  rw [h.2]
  decide
